import Mathlib

/-!
Verification of the Game-of-Life matrix simulation
(`bonus_implementations/circuitPython_slow_but_functional.py`).

The grid buffers (`current_bitmap`, `next_bitmap`, `fade_buffer`) are flat
byte buffers indexed by `x + y * width`; we model a buffer as a function
`Nat → Nat`.  All configuration constants are taken verbatim from the
source module.
-/

namespace GameOfLife

/-- Number of fade levels for dying cells (source constant `FADE_LEVELS`). -/
def FADE_LEVELS : Nat := 8

/-- How fast cells fade (source constant `FADE_DECAY_RATE`). -/
def FADE_DECAY_RATE : Nat := 1

/-- Source constant `AUTO_RESET_ON_STABLE`. -/
def AUTO_RESET_ON_STABLE : Bool := true

/-- Source constant `STABLE_GENERATIONS`. -/
def STABLE_GENERATIONS : Nat := 10

/-- Source constant `HISTORY_SIZE`. -/
def HISTORY_SIZE : Nat := 3

/-- `max_fade = FADE_LEVELS - 1`, the value of a fully alive cell. -/
def max_fade : Nat := FADE_LEVELS - 1

/-- Flat buffer index of cell `(x, y)`: the source addresses buffers by
`x + y_offset` with `y_offset = y * width`. -/
def cellIdx (w x y : Nat) : Nat := x + y * w

/-- Indicator used by the neighbor count: 1 when the buffer holds `max_fade`
at index `i` (only fully alive cells count), else 0. -/
def isMax (cur : Nat → Nat) (i : Nat) : Nat := if cur i = max_fade then 1 else 0

/-- Wrapped `x - 1` exactly as the loop maintains `x_minus_1`: it starts the
row at `width - 1` (for `x = 0`) and afterwards equals the previous `x`. -/
def xWrapM1 (w x : Nat) : Nat := if x = 0 then w - 1 else x - 1

/-- Wrapped `x + 1` as computed in the loop (`0` when `x == width - 1`). -/
def xWrapP1 (w x : Nat) : Nat := if x = w - 1 then 0 else x + 1

/-- Wrapped row above: the source computes `ym1_offset` as
`(height-1)*width` when `y == 0`, else `(y-1)*width`; this is the row part. -/
def yWrapM1 (h y : Nat) : Nat := if y = 0 then h - 1 else y - 1

/-- Wrapped row below: `yp1_offset` is `0` when `y == height-1`,
else `(y+1)*width`; this is the row part. -/
def yWrapP1 (h y : Nat) : Nat := if y = h - 1 then 0 else y + 1

/-- Neighbor count of cell `(x, y)`: the eight reads of
`apply_life_rule_with_fade`, in source order, each counting only cells that
equal `max_fade`. -/
def neighborCount (w h : Nat) (cur : Nat → Nat) (x y : Nat) : Nat :=
  isMax cur (cellIdx w (xWrapM1 w x) (yWrapM1 h y)) +
  isMax cur (cellIdx w x (yWrapM1 h y)) +
  isMax cur (cellIdx w (xWrapP1 w x) (yWrapM1 h y)) +
  isMax cur (cellIdx w (xWrapM1 w x) y) +
  isMax cur (cellIdx w (xWrapP1 w x) y) +
  isMax cur (cellIdx w (xWrapM1 w x) (yWrapP1 h y)) +
  isMax cur (cellIdx w x (yWrapP1 h y)) +
  isMax cur (cellIdx w (xWrapP1 w x) (yWrapP1 h y))

/-- The toroidally wrapped 8-neighborhood count as the spec describes it:
coordinates shifted by ±1 and reduced mod the dimension.  Used to state the
life rule independently of the source's branch-based wrap. -/
def wrapNeighborCount (w h : Nat) (cur : Nat → Nat) (x y : Nat) : Nat :=
  isMax cur (cellIdx w ((x + (w - 1)) % w) ((y + (h - 1)) % h)) +
  isMax cur (cellIdx w (x % w) ((y + (h - 1)) % h)) +
  isMax cur (cellIdx w ((x + 1) % w) ((y + (h - 1)) % h)) +
  isMax cur (cellIdx w ((x + (w - 1)) % w) (y % h)) +
  isMax cur (cellIdx w ((x + 1) % w) (y % h)) +
  isMax cur (cellIdx w ((x + (w - 1)) % w) ((y + 1) % h)) +
  isMax cur (cellIdx w (x % w) ((y + 1) % h)) +
  isMax cur (cellIdx w ((x + 1) % w) ((y + 1) % h))

/-- Conway condition of the source: `(neighbors == 3) or
(neighbors == 2 and cell_alive)` where `cell_alive` means the current cell
equals `max_fade`. -/
def aliveNextb (w h : Nat) (cur : Nat → Nat) (x y : Nat) : Bool :=
  (neighborCount w h cur x y == 3) ||
    ((neighborCount w h cur x y == 2) && (cur (cellIdx w x y) == max_fade))

/-- Fade update of the dead/dying branch: `if fade > 0:
fade = max(0, fade - FADE_DECAY_RATE)` (note `Nat` subtraction is already
clamped at 0, matching Python's `max(0, ...)`). -/
def decayFade (f rate : Nat) : Nat := if 0 < f then f - rate else f

/-- Value written to `next_bmp[cell]` by `apply_life_rule_with_fade`. -/
def nextCell (w h rate : Nat) (cur fade : Nat → Nat) (x y : Nat) : Nat :=
  if aliveNextb w h cur x y then max_fade
  else decayFade (fade (cellIdx w x y)) rate

/-- Value left in `fade[cell]` by `apply_life_rule_with_fade`. -/
def newFadeCell (w h rate : Nat) (cur fade : Nat → Nat) (x y : Nat) : Nat :=
  if aliveNextb w h cur x y then max_fade
  else decayFade (fade (cellIdx w x y)) rate

/-- `cell_alive` test of the source: a cell is alive iff its stored value
equals `max_fade`. -/
def cellAlive (buf : Nat → Nat) (i : Nat) : Bool := buf i == max_fade

/-- `count_population`: fold over all flat indices counting cells equal to
`max_fade`, mirroring the source loop `for i in range(size)`. -/
def count_population (w h : Nat) (buf : Nat → Nat) : Nat :=
  (List.range (w * h)).foldl (fun c i => if buf i = max_fade then c + 1 else c) 0

/-- The three grid buffers owned by the game object. -/
structure GridState where
  cur : Nat → Nat
  nxt : Nat → Nat
  fadeBuf : Nat → Nat

/-- `random_threshold = int(fraction * 32767)` (truncation equals floor for
the nonnegative fractions the spec admits). -/
def random_threshold (fraction : ℚ) : ℤ := Int.floor (fraction * 32767)

/-- `randomize(fraction)`: each cell of `current_bitmap` and `fade_buffer`
is set to `max_fade` when the 15-bit draw `rnd i` is below the threshold,
else 0; `next_bitmap` is untouched.  `rnd` models
`random.getrandbits(15)`, one draw per cell, each in `[0, 32768)`. -/
def randomize (w h : Nat) (fraction : ℚ) (rnd : Nat → Nat) (g : GridState) :
    GridState :=
  GridState.mk
    (fun i => if i < w * h then
        (if (rnd i : ℤ) < random_threshold fraction then max_fade else 0)
      else g.cur i)
    g.nxt
    (fun i => if i < w * h then
        (if (rnd i : ℤ) < random_threshold fraction then max_fade else 0)
      else g.fadeBuf i)

/-- History shift of `check_stability`: entries move one slot toward the old
end and the new count enters at index 0. -/
def shiftHistory (hist : List Nat) (pop : Nat) : List Nat := pop :: hist.dropLast

/-- Python `max` over a nonempty list (0 for the empty list, never reached
by the source). -/
def listMax : List Nat → Nat
  | [] => 0
  | x :: xs => xs.foldl Nat.max x

/-- Python `min` over a nonempty list (0 for the empty list, never reached
by the source). -/
def listMin : List Nat → Nat
  | [] => 0
  | x :: xs => xs.foldl Nat.min x

/-- The stability checks of `check_stability`, after the shift, in source
order with first match winning.  An indexed read out of bounds (Python
`IndexError`) is `none`: `history[0]` and `history[1]` are read
unconditionally, `history[2]` only under the guard `HISTORY_SIZE >= 3`
(the window length). -/
def isStableChecked (hist : List Nat) : Option Bool :=
  match hist[0]?, hist[1]? with
  | some h0, some h1 =>
    if h0 = h1 then some true
    else if 3 ≤ hist.length then
      match hist[2]? with
      | some h2 =>
        if h0 = h2 ∧ h0 ≠ h1 then some true
        else if hist.dedup.length ≤ 3 ∧ listMax hist - listMin hist ≤ 2 then
          some true
        else some false
      | none => none
    else some false
  | _, _ => none

/-- `check_stability(current_pop)`: shift the history, then run the checks
on the shifted window. -/
def check_stability (hist : List Nat) (pop : Nat) : List Nat × Option Bool :=
  (shiftHistory hist pop, isStableChecked (shiftHistory hist pop))

/-- Stability-tracking state: `population_history`, `stable_count`,
`generation`. -/
structure Track where
  history : List Nat
  stable_count : Nat
  generation : Nat
deriving DecidableEq

/-- Whether the stability check of one `handle_stable_state` call reports
stable — the truthiness test `if self.check_stability(current_pop):`. -/
def stepIsStable (t : Track) (pop : Nat) : Bool :=
  ((check_stability t.history pop).2).getD false

/-- `handle_stable_state` (with `AUTO_RESET_ON_STABLE` true): run
`check_stability`, increment or clear `stable_count`, reseed when the count
reaches `STABLE_GENERATIONS` (history zeroed, `stable_count` and
`generation` reset to 0), and finally increment `generation`
unconditionally — in the reseed branch `generation` therefore ends at
`0 + 1`.  The returned flag records whether `randomize` was called. -/
def handle_stable_state (t : Track) (pop : Nat) : Track × Bool :=
  if stepIsStable t pop then
    if STABLE_GENERATIONS ≤ t.stable_count + 1 then
      (Track.mk (List.replicate HISTORY_SIZE 0) 0 (0 + 1), true)
    else
      (Track.mk (check_stability t.history pop).1 (t.stable_count + 1)
        (t.generation + 1), false)
  else
    (Track.mk (check_stability t.history pop).1 0 (t.generation + 1), false)

/-- Run `handle_stable_state` over a list of successive population counts,
collecting the reseed flags in order. -/
def runSteps : Track → List Nat → Track × List Bool
  | t, [] => (t, [])
  | t, p :: ps =>
    let r := handle_stable_state t p
    let rest := runSteps r.1 ps
    (rest.1, r.2 :: rest.2)

/-- All checks along a run of `handle_stable_state` report stable. -/
def allStable : Track → List Nat → Bool
  | _, [] => true
  | t, p :: ps => stepIsStable t p && allStable (handle_stable_state t p).1 ps

/-! ### Helper lemmas -/

lemma random_threshold_zero : random_threshold 0 = 0 := by
  unfold random_threshold; norm_num

lemma random_threshold_one : random_threshold 1 = 32767 := by
  unfold random_threshold; norm_num

lemma xWrapM1_eq (w x : Nat) (hx : x < w) : xWrapM1 w x = (x + (w - 1)) % w := by
  unfold xWrapM1
  by_cases h0 : x = 0
  · subst h0
    rw [if_pos rfl, Nat.zero_add, Nat.mod_eq_of_lt (by omega)]
  · rw [if_neg h0]
    have hx1 : x + (w - 1) = w + (x - 1) := by omega
    rw [hx1, Nat.add_mod_left, Nat.mod_eq_of_lt (by omega)]

lemma xWrapP1_eq (w x : Nat) (hx : x < w) : xWrapP1 w x = (x + 1) % w := by
  unfold xWrapP1
  by_cases h0 : x = w - 1
  · subst h0
    rw [if_pos rfl]
    have hw : w - 1 + 1 = w := by omega
    rw [hw, Nat.mod_self]
  · rw [if_neg h0, Nat.mod_eq_of_lt (by omega)]

lemma yWrapM1_eq (h y : Nat) (hy : y < h) : yWrapM1 h y = (y + (h - 1)) % h := by
  unfold yWrapM1
  by_cases h0 : y = 0
  · subst h0
    rw [if_pos rfl, Nat.zero_add, Nat.mod_eq_of_lt (by omega)]
  · rw [if_neg h0]
    have hy1 : y + (h - 1) = h + (y - 1) := by omega
    rw [hy1, Nat.add_mod_left, Nat.mod_eq_of_lt (by omega)]

lemma yWrapP1_eq (h y : Nat) (hy : y < h) : yWrapP1 h y = (y + 1) % h := by
  unfold yWrapP1
  by_cases h0 : y = h - 1
  · subst h0
    rw [if_pos rfl]
    have hh : h - 1 + 1 = h := by omega
    rw [hh, Nat.mod_self]
  · rw [if_neg h0, Nat.mod_eq_of_lt (by omega)]

/-- The source's branch-based wrap agrees with the mod-based toroidal
neighborhood of the spec at every in-range cell, hence at all edges. -/
lemma neighborCount_eq_wrap (w h : Nat) (cur : Nat → Nat) (x y : Nat)
    (hx : x < w) (hy : y < h) :
    neighborCount w h cur x y = wrapNeighborCount w h cur x y := by
  unfold neighborCount wrapNeighborCount
  rw [xWrapM1_eq w x hx, xWrapP1_eq w x hx, yWrapM1_eq h y hy, yWrapP1_eq h y hy,
    Nat.mod_eq_of_lt hx, Nat.mod_eq_of_lt hy]

lemma decayFade_le (f rate : Nat) : decayFade f rate ≤ f := by
  unfold decayFade; split <;> omega

lemma decayFade_lt_max (f rate : Nat) (hf : f ≤ max_fade) (hr : 1 ≤ rate) :
    decayFade f rate < max_fade := by
  unfold decayFade max_fade FADE_LEVELS at *
  split <;> omega

/-! ### C1 -/

/-- C1: the value `apply_life_rule_with_fade` writes to the next-generation
buffer equals `max_fade` iff the toroidally wrapped 8-neighborhood of the
cell holds exactly 3 cells at `max_fade`, or exactly 2 and the cell itself
is at `max_fade`; only cells exactly at `max_fade` count, and on a 3x3 grid
with only cell (0,0) at `max_fade`, cell (2,2) counts it among its
neighbors.  (`fade` values are within the buffer invariant
`[0, max_fade]`.) -/
theorem next_gen_alive_iff (w h : Nat) (cur fade : Nat → Nat) (x y : Nat)
    (hx : x < w) (hy : y < h) (hfade : ∀ i, fade i ≤ max_fade) :
    (nextCell w h FADE_DECAY_RATE cur fade x y = max_fade ↔
      wrapNeighborCount w h cur x y = 3 ∨
        (wrapNeighborCount w h cur x y = 2 ∧ cur (cellIdx w x y) = max_fade)) ∧
    neighborCount 3 3 (fun i => if i = 0 then max_fade else 0) 2 2 = 1 := by
  constructor
  · rw [← neighborCount_eq_wrap w h cur x y hx hy]
    unfold nextCell
    constructor
    · intro hmax
      by_cases hb : aliveNextb w h cur x y = true
      · unfold aliveNextb at hb
        simpa using hb
      · rw [if_neg hb] at hmax
        have hlt := decayFade_lt_max (fade (cellIdx w x y)) FADE_DECAY_RATE
          (hfade _) (by decide)
        omega
    · intro hcond
      have hb : aliveNextb w h cur x y = true := by
        unfold aliveNextb
        rcases hcond with h3 | ⟨h2, hc⟩
        · simp [h3]
        · simp [h2, hc]
      rw [if_pos hb]
  · decide

/-- C1 witness: the theorem applied on the 3x3 wraparound grid at cell
(2,2) with an all-zero fade buffer. -/
theorem next_gen_alive_iff_witness :
    (nextCell 3 3 FADE_DECAY_RATE (fun i => if i = 0 then max_fade else 0)
        (fun _ => 0) 2 2 = max_fade ↔
      wrapNeighborCount 3 3 (fun i => if i = 0 then max_fade else 0) 2 2 = 3 ∨
        (wrapNeighborCount 3 3 (fun i => if i = 0 then max_fade else 0) 2 2 = 2 ∧
          (fun i => if i = 0 then max_fade else 0) (cellIdx 3 2 2) = max_fade)) ∧
    neighborCount 3 3 (fun i => if i = 0 then max_fade else 0) 2 2 = 1 :=
  next_gen_alive_iff 3 3 (fun i => if i = 0 then max_fade else 0) (fun _ => 0)
    2 2 (by decide) (by decide) (fun i => Nat.zero_le _)

/-! ### C2 -/

/-- C2: the stability predicate (static, then period-2, then bounded
oscillation, first match wins) returns true on the window `[5,5,5]`, true
on `[5,7,5]`, and false on `[5,7,9]`. -/
theorem isStable_on_examples :
    isStableChecked [5, 5, 5] = some true ∧
    isStableChecked [5, 7, 5] = some true ∧
    isStableChecked [5, 7, 9] = some false := by
  refine ⟨?_, ?_, ?_⟩ <;> decide

/-! ### C5 -/

/-- C5 counterexample: with `fraction = 1.0` the threshold is
`int(1.0 * 32767) = 32767`, while `getrandbits(15)` ranges over
`[0, 32768)`; the admissible outcome 32767 fails `32767 < 32767`, so the
cell is set to 0, not `max_fade` — the claim is false for this outcome of
the per-cell randomness. -/
theorem randomize_one_not_all_alive :
    (∀ i, (fun _ : Nat => 32767) i < 32768) ∧
    (randomize 1 1 1 (fun _ => 32767)
        (GridState.mk (fun _ => 0) (fun _ => 0) (fun _ => 0))).cur 0 = 0 ∧
    (0 : Nat) ≠ max_fade := by
  refine ⟨fun i => Nat.lt_succ_self 32767, ?_, by decide⟩
  unfold randomize
  simp only
  rw [if_pos (by decide : (0 : Nat) < 1 * 1), random_threshold_one,
    if_neg (by decide : ¬((32767 : Nat) : ℤ) < 32767)]

/-- C5 (amended): for every outcome of the per-cell randomness,
`randomize(0.0)` zeroes every cell of the current and fade buffers; for
every outcome whose 15-bit draw at the cell is below 32767 (all outcomes
except the maximal draw 32767), `randomize(1.0)` sets the cell of both
buffers to `max_fade`; the fade buffer always equals the current buffer
cell-wise, and the next buffer is never modified. -/
theorem randomize_extremes (w h : Nat) (rnd : Nat → Nat) (g : GridState)
    (i : Nat) (hi : i < w * h) :
    ((randomize w h 0 rnd g).cur i = 0 ∧ (randomize w h 0 rnd g).fadeBuf i = 0) ∧
    (rnd i < 32767 →
      (randomize w h 1 rnd g).cur i = max_fade ∧
      (randomize w h 1 rnd g).fadeBuf i = max_fade) ∧
    (∀ frac : ℚ,
      (randomize w h frac rnd g).fadeBuf i = (randomize w h frac rnd g).cur i) ∧
    (∀ frac : ℚ, (randomize w h frac rnd g).nxt = g.nxt) := by
  refine ⟨⟨?_, ?_⟩, ?_, ?_, fun frac => rfl⟩
  · unfold randomize
    simp only
    rw [if_pos hi, random_threshold_zero,
      if_neg (by exact not_lt.mpr (Int.natCast_nonneg (rnd i)))]
  · unfold randomize
    simp only
    rw [if_pos hi, random_threshold_zero,
      if_neg (by exact not_lt.mpr (Int.natCast_nonneg (rnd i)))]
  · intro hr
    have hlt : ((rnd i : Nat) : ℤ) < 32767 := by exact_mod_cast hr
    constructor
    · unfold randomize
      simp only
      rw [if_pos hi, random_threshold_one, if_pos hlt]
    · unfold randomize
      simp only
      rw [if_pos hi, random_threshold_one, if_pos hlt]
  · intro frac
    unfold randomize
    simp only
    rw [if_pos hi, if_pos hi]

/-- C5 witness: the amended theorem applied on a 1x1 grid with the
constant draw 5. -/
theorem randomize_extremes_witness :
    (randomize 1 1 0 (fun _ => 5)
        (GridState.mk (fun _ => 2) (fun _ => 3) (fun _ => 4))).cur 0 = 0 ∧
    (randomize 1 1 1 (fun _ => 5)
        (GridState.mk (fun _ => 2) (fun _ => 3) (fun _ => 4))).cur 0 = max_fade ∧
    (randomize 1 1 1 (fun _ => 5)
        (GridState.mk (fun _ => 2) (fun _ => 3) (fun _ => 4))).nxt =
      (GridState.mk (fun _ : Nat => 2) (fun _ : Nat => 3) (fun _ : Nat => 4)).nxt :=
  ⟨(randomize_extremes 1 1 (fun _ => 5)
      (GridState.mk (fun _ => 2) (fun _ => 3) (fun _ => 4)) 0 (by decide)).1.1,
   ((randomize_extremes 1 1 (fun _ => 5)
      (GridState.mk (fun _ => 2) (fun _ => 3) (fun _ => 4)) 0 (by decide)).2.1
      (by decide)).1,
   (randomize_extremes 1 1 (fun _ => 5)
      (GridState.mk (fun _ => 2) (fun _ => 3) (fun _ => 4)) 0 (by decide)).2.2.2 1⟩

/-! ### C6 -/

/-- C6: for a cell that is not alive next generation, the updated fade
value is `max(0, fade - decayRate)`, the next-buffer value equals the
updated fade value, and the fade value never increases (clamped at 0). -/
theorem dead_cell_fade_decay (w h rate : Nat) (cur fade : Nat → Nat)
    (x y : Nat) (hdead : aliveNextb w h cur x y = false) :
    ((newFadeCell w h rate cur fade x y : ℤ) =
      max 0 ((fade (cellIdx w x y) : ℤ) - (rate : ℤ))) ∧
    nextCell w h rate cur fade x y = newFadeCell w h rate cur fade x y ∧
    newFadeCell w h rate cur fade x y ≤ fade (cellIdx w x y) := by
  have hnb : ¬ (aliveNextb w h cur x y = true) := by simp [hdead]
  unfold newFadeCell nextCell
  rw [if_neg hnb]
  refine ⟨?_, rfl, decayFade_le _ _⟩
  unfold decayFade
  split
  · omega
  · omega

/-- C6 witness: the theorem applied to a dead 2x2 all-zero grid with fade
value 5 and decay rate 1 at cell (0,0). -/
theorem dead_cell_fade_decay_witness :
    ((newFadeCell 2 2 1 (fun _ => 0) (fun _ => 5) 0 0 : ℤ) =
      max 0 (((fun _ : Nat => 5) (cellIdx 2 0 0) : ℤ) - (1 : ℤ))) ∧
    nextCell 2 2 1 (fun _ => 0) (fun _ => 5) 0 0 =
      newFadeCell 2 2 1 (fun _ => 0) (fun _ => 5) 0 0 ∧
    newFadeCell 2 2 1 (fun _ => 0) (fun _ => 5) 0 0 ≤
      (fun _ : Nat => 5) (cellIdx 2 0 0) :=
  dead_cell_fade_decay 2 2 1 (fun _ => 0) (fun _ => 5) 0 0 (by decide)

/-! ### C7 -/

/-- C7: every buffer write stays within `[0, FADE_LEVELS - 1]` (values are
naturals, so 0 is a lower bound by construction): `randomize` writes only 0
or `max_fade` and preserves the bound on the untouched next buffer, the
generation step writes values at most `max_fade` into the next and fade
buffers whenever the fade buffer satisfies the invariant, and a cell is
alive iff its value equals `FADE_LEVELS - 1`. -/
theorem buffer_values_in_range (w h rate : Nat) (frac : ℚ) (rnd : Nat → Nat)
    (g : GridState) (cur fade buf : Nat → Nat) (x y i j : Nat)
    (hg : ∀ k, g.cur k ≤ max_fade ∧ g.nxt k ≤ max_fade ∧ g.fadeBuf k ≤ max_fade)
    (hfade : ∀ k, fade k ≤ max_fade) :
    ((randomize w h frac rnd g).cur i ≤ max_fade ∧
      (randomize w h frac rnd g).nxt i ≤ max_fade ∧
      (randomize w h frac rnd g).fadeBuf i ≤ max_fade) ∧
    (nextCell w h rate cur fade x y ≤ max_fade ∧
      newFadeCell w h rate cur fade x y ≤ max_fade) ∧
    (cellAlive buf j = true ↔ buf j = FADE_LEVELS - 1) := by
  refine ⟨⟨?_, (hg i).2.1, ?_⟩, ⟨?_, ?_⟩, ?_⟩
  · show (if i < w * h then
        (if (rnd i : ℤ) < random_threshold frac then max_fade else 0)
      else g.cur i) ≤ max_fade
    split
    · split
      · exact le_refl _
      · exact Nat.zero_le _
    · exact (hg i).1
  · show (if i < w * h then
        (if (rnd i : ℤ) < random_threshold frac then max_fade else 0)
      else g.fadeBuf i) ≤ max_fade
    split
    · split
      · exact le_refl _
      · exact Nat.zero_le _
    · exact (hg i).2.2
  · unfold nextCell
    split
    · exact le_refl _
    · exact le_trans (decayFade_le _ _) (hfade _)
  · unfold newFadeCell
    split
    · exact le_refl _
    · exact le_trans (decayFade_le _ _) (hfade _)
  · unfold cellAlive
    exact beq_iff_eq

/-- C7 witness: the invariant theorem applied on a 2x2 grid with all
buffers constantly 3 and the draw constantly 7. -/
theorem buffer_values_in_range_witness :
    ((randomize 2 2 1 (fun _ => 7)
        (GridState.mk (fun _ => 3) (fun _ => 3) (fun _ => 3))).cur 0 ≤ max_fade ∧
      (randomize 2 2 1 (fun _ => 7)
        (GridState.mk (fun _ => 3) (fun _ => 3) (fun _ => 3))).nxt 0 ≤ max_fade ∧
      (randomize 2 2 1 (fun _ => 7)
        (GridState.mk (fun _ => 3) (fun _ => 3) (fun _ => 3))).fadeBuf 0 ≤ max_fade) ∧
    (nextCell 2 2 1 (fun _ => 3) (fun _ => 3) 0 1 ≤ max_fade ∧
      newFadeCell 2 2 1 (fun _ => 3) (fun _ => 3) 0 1 ≤ max_fade) ∧
    (cellAlive (fun _ => 3) 5 = true ↔ (fun _ : Nat => 3) 5 = FADE_LEVELS - 1) :=
  buffer_values_in_range 2 2 1 1 (fun _ => 7)
    (GridState.mk (fun _ => 3) (fun _ => 3) (fun _ => 3))
    (fun _ => 3) (fun _ => 3) (fun _ => 3) 0 1 0 5
    (fun k => ⟨by show (3 : Nat) ≤ max_fade; decide,
      by show (3 : Nat) ≤ max_fade; decide, by show (3 : Nat) ≤ max_fade; decide⟩)
    (fun k => by show (3 : Nat) ≤ max_fade; decide)

/-! ### C9 -/

lemma count_population_card (buf : Nat → Nat) :
    ∀ n : Nat,
      (List.range n).foldl (fun c i => if buf i = max_fade then c + 1 else c) 0 =
        ((Finset.range n).filter (fun i => buf i = max_fade)).card := by
  intro n
  induction n with
  | zero => simp
  | succ m ih =>
    rw [List.range_succ, List.foldl_append, ih, Finset.range_succ,
      Finset.filter_insert]
    by_cases hm : buf m = max_fade
    · rw [if_pos hm, Finset.card_insert_of_not_mem (by simp)]
      simp [hm]
    · rw [if_neg hm]
      simp [hm]

/-- C9: `count_population` returns exactly the number of cells equal to
`FADE_LEVELS - 1`; it is 0 on an all-zero buffer and `w * h` on a buffer
where every cell is at the max level. -/
theorem count_population_spec (w h : Nat) (buf : Nat → Nat) :
    count_population w h buf =
      ((Finset.range (w * h)).filter (fun i => buf i = FADE_LEVELS - 1)).card ∧
    ((∀ i, buf i = 0) → count_population w h buf = 0) ∧
    ((∀ i, buf i = FADE_LEVELS - 1) → count_population w h buf = w * h) := by
  refine ⟨count_population_card buf (w * h), ?_, ?_⟩
  · intro h0
    unfold count_population
    rw [count_population_card buf (w * h)]
    have hempty : (Finset.range (w * h)).filter (fun i => buf i = max_fade) = ∅ := by
      refine Finset.filter_eq_empty_iff.mpr ?_
      intro i _
      rw [h0 i]
      decide
    rw [hempty, Finset.card_empty]
  · intro hall
    unfold count_population
    rw [count_population_card buf (w * h)]
    have hfull : (Finset.range (w * h)).filter (fun i => buf i = max_fade) =
        Finset.range (w * h) := by
      refine Finset.filter_true_of_mem ?_
      intro i _
      exact hall i
    rw [hfull, Finset.card_range]

/-- C9 witness: the counting theorem applied on a 2x2 all-dead buffer and a
2x2 all-alive buffer. -/
theorem count_population_spec_witness :
    count_population 2 2 (fun _ => 0) = 0 ∧
    count_population 2 2 (fun _ => FADE_LEVELS - 1) = 2 * 2 :=
  ⟨(count_population_spec 2 2 (fun _ => 0)).2.1 (fun _ => rfl),
   (count_population_spec 2 2 (fun _ => FADE_LEVELS - 1)).2.2 (fun _ => rfl)⟩

/-! ### C10 -/

/-- C10: the generation step is deterministic — equal current-buffer and
fade-buffer contents give cell-wise equal next-buffer and updated
fade-buffer contents; the step takes no source of randomness. -/
theorem generation_deterministic (w h rate : Nat)
    (cur cur2 fade fade2 : Nat → Nat)
    (hc : ∀ i, cur i = cur2 i) (hf : ∀ i, fade i = fade2 i) :
    (∀ x y, nextCell w h rate cur fade x y = nextCell w h rate cur2 fade2 x y) ∧
    (∀ x y, newFadeCell w h rate cur fade x y =
      newFadeCell w h rate cur2 fade2 x y) := by
  have hce : cur = cur2 := funext hc
  have hfe : fade = fade2 := funext hf
  subst hce hfe
  exact ⟨fun x y => rfl, fun x y => rfl⟩

/-- C10 witness: determinism applied to two syntactically different but
pointwise-equal buffer pairs on a 2x2 grid. -/
theorem generation_deterministic_witness :
    nextCell 2 2 1 (fun _ => 7) (fun i => i * 0 + 7) 1 1 =
      nextCell 2 2 1 (fun i => i * 0 + 7) (fun _ => 7) 1 1 ∧
    newFadeCell 2 2 1 (fun _ => 7) (fun i => i * 0 + 7) 1 1 =
      newFadeCell 2 2 1 (fun i => i * 0 + 7) (fun _ => 7) 1 1 :=
  ⟨(generation_deterministic 2 2 1 (fun _ => 7) (fun i => i * 0 + 7)
      (fun i => i * 0 + 7) (fun _ => 7)
      (fun _ => by simp) (fun _ => by simp)).1 1 1,
   (generation_deterministic 2 2 1 (fun _ => 7) (fun i => i * 0 + 7)
      (fun i => i * 0 + 7) (fun _ => 7)
      (fun _ => by simp) (fun _ => by simp)).2 1 1⟩

/-! ### C3 -/

lemma handle_stable_state_stable_no_reseed (t : Track) (p : Nat)
    (hstep : stepIsStable t p = true)
    (hns : ¬ STABLE_GENERATIONS ≤ t.stable_count + 1) :
    handle_stable_state t p =
      (Track.mk (check_stability t.history p).1 (t.stable_count + 1)
        (t.generation + 1), false) := by
  unfold handle_stable_state
  rw [hstep, if_pos rfl, if_neg hns]

lemma handle_stable_state_reseed (t : Track) (p : Nat)
    (hstep : stepIsStable t p = true)
    (hge : STABLE_GENERATIONS ≤ t.stable_count + 1) :
    handle_stable_state t p =
      (Track.mk (List.replicate HISTORY_SIZE 0) 0 (0 + 1), true) := by
  unfold handle_stable_state
  rw [hstep, if_pos rfl, if_pos hge]

lemma runSteps_all_stable_reseed_last :
    ∀ (pops : List Nat) (t : Track), allStable t pops = true →
      t.stable_count < STABLE_GENERATIONS →
      t.stable_count + pops.length = STABLE_GENERATIONS →
      (runSteps t pops).2 = List.replicate (pops.length - 1) false ++ [true] ∧
      (runSteps t pops).1 = Track.mk (List.replicate HISTORY_SIZE 0) 0 1 := by
  intro pops
  induction pops with
  | nil =>
    intro t _ hlt heq
    simp only [List.length_nil, Nat.add_zero] at heq
    omega
  | cons p ps ih =>
    intro t hall hlt heq
    unfold allStable at hall
    rw [Bool.and_eq_true] at hall
    obtain ⟨hstep, hrest⟩ := hall
    by_cases hge : STABLE_GENERATIONS ≤ t.stable_count + 1
    · have hps : ps = [] := by
        simp only [List.length_cons] at heq
        have : ps.length = 0 := by
          unfold STABLE_GENERATIONS at heq hge
          omega
        exact List.length_eq_zero.mp this
      subst hps
      unfold runSteps
      rw [handle_stable_state_reseed t p hstep hge]
      exact ⟨rfl, rfl⟩
    · have hh := handle_stable_state_stable_no_reseed t p hstep hge
      have hlen1 : 1 ≤ ps.length := by
        simp only [List.length_cons] at heq
        unfold STABLE_GENERATIONS at heq hge
        omega
      have hih := ih (Track.mk (check_stability t.history p).1
          (t.stable_count + 1) (t.generation + 1))
        (by rw [hh] at hrest; exact hrest)
        (by simp only [Track.stable_count]; omega)
        (by
          simp only [Track.stable_count, List.length_cons] at heq ⊢
          omega)
      unfold runSteps
      rw [hh]
      simp only [List.length_cons]
      constructor
      · rw [hih.1]
        have : p :: ps = p :: ps := rfl
        rw [show ps.length + 1 - 1 = ps.length - 1 + 1 by omega,
          List.replicate_succ, List.cons_append]
      · exact hih.2

/-- C3 counterexample: starting right after a reset
(`stable_count = 0`, all-zero history) and feeding ten generations whose
stability check reports stable, the reseed fires exactly at the 10th
generation, but the `generation` counter ends at 1, not 0: the handler
resets it to 0 and then runs its unconditional `generation += 1`. -/
theorem reseed_generation_one_not_zero :
    allStable (Track.mk [0, 0, 0] 0 0) (List.replicate 10 0) = true ∧
    (runSteps (Track.mk [0, 0, 0] 0 0) (List.replicate 10 0)).2 =
      List.replicate 9 false ++ [true] ∧
    (runSteps (Track.mk [0, 0, 0] 0 0) (List.replicate 10 0)).1.generation = 1 ∧
    ¬ (runSteps (Track.mk [0, 0, 0] 0 0) (List.replicate 10 0)).1.generation = 0 := by
  refine ⟨?_, ?_, ?_, ?_⟩ <;> decide

/-- C3 (amended): with `STABLE_GENERATIONS = 10`, if the stability check
reports stable for 10 consecutive generations since the last reset
(`stable_count = 0`), the reseed is performed exactly once, at the 10th
such generation; immediately after that generation's processing,
`stable_count = 0`, every history entry is 0, and `generation = 1` (it is
reset to 0 and then incremented by the handler's unconditional final
increment).  If the check reports not stable, `stable_count` is reset
to 0. -/
theorem reseed_after_ten_stable (t : Track) (pops : List Nat)
    (_hhist : t.history.length = HISTORY_SIZE) (hsc : t.stable_count = 0)
    (hlen : pops.length = STABLE_GENERATIONS) (hall : allStable t pops = true) :
    (runSteps t pops).2 = List.replicate (STABLE_GENERATIONS - 1) false ++ [true] ∧
    (runSteps t pops).1.history = List.replicate HISTORY_SIZE 0 ∧
    (runSteps t pops).1.stable_count = 0 ∧
    (runSteps t pops).1.generation = 1 ∧
    (∀ t2 p, stepIsStable t2 p = false →
      (handle_stable_state t2 p).1.stable_count = 0) := by
  have hmain := runSteps_all_stable_reseed_last pops t hall
    (by rw [hsc]; decide) (by rw [hsc, hlen, Nat.zero_add])
  refine ⟨?_, ?_, ?_, ?_, ?_⟩
  · rw [hmain.1, hlen]
  · rw [hmain.2]
  · rw [hmain.2]
  · rw [hmain.2]
  · intro t2 p hns
    unfold handle_stable_state
    rw [hns]
    simp

/-- C3 witness: the amended theorem applied to ten stable generations with
constant population 3 starting from a freshly reset tracking state. -/
theorem reseed_after_ten_stable_witness :
    (runSteps (Track.mk [3, 3, 3] 0 5) (List.replicate 10 3)).2 =
      List.replicate (STABLE_GENERATIONS - 1) false ++ [true] ∧
    (runSteps (Track.mk [3, 3, 3] 0 5) (List.replicate 10 3)).1.history =
      List.replicate HISTORY_SIZE 0 ∧
    (runSteps (Track.mk [3, 3, 3] 0 5) (List.replicate 10 3)).1.stable_count = 0 ∧
    (runSteps (Track.mk [3, 3, 3] 0 5) (List.replicate 10 3)).1.generation = 1 ∧
    (∀ t2 p, stepIsStable t2 p = false →
      (handle_stable_state t2 p).1.stable_count = 0) :=
  reseed_after_ten_stable (Track.mk [3, 3, 3] 0 5) (List.replicate 10 3)
    (by decide) rfl (by decide) (by decide)

/-! ### C4 -/

/-- Simulator state of `run`: the two owned bitmaps `b1`/`b2`, which one is
`current_bitmap` (`curIsB1`), which group the display presents
(`shownIsG1`, true when `root_group` is `g1`, the group holding `b1`), the
fade buffer, and the stability-tracking state. -/
structure SimState where
  b1 : Nat → Nat
  b2 : Nat → Nat
  curIsB1 : Bool
  shownIsG1 : Bool
  fadeBuf : Nat → Nat
  track : Track

/-- The buffer currently in the `current_bitmap` role. -/
def currentBuf (s : SimState) : Nat → Nat := if s.curIsB1 then s.b1 else s.b2

/-- The buffer the display presents (`root_group`). -/
def presentedBuf (s : SimState) : Nat → Nat :=
  if s.shownIsG1 then s.b1 else s.b2

/-- Whole-buffer content written by `apply_life_rule_with_fade` into the
next bitmap: cell `(i % w, i / w)` at each flat index `i < w * h`,
untouched elsewhere. -/
def genNext (w h : Nat) (cur fade old : Nat → Nat) : Nat → Nat :=
  fun i => if i < w * h then
    nextCell w h FADE_DECAY_RATE cur fade (i % w) (i / w)
  else old i

/-- Whole-buffer fade content left by `apply_life_rule_with_fade`. -/
def genFade (w h : Nat) (cur fade : Nat → Nat) : Nat → Nat :=
  fun i => if i < w * h then
    newFadeCell w h FADE_DECAY_RATE cur fade (i % w) (i / w)
  else fade i

/-- One iteration of the `while True` loop of `run`: apply the life rule
into the next bitmap, swap the `current`/`next` roles, and toggle the
presented group.  The loop body contains no call to `handle_stable_state`
(the call is commented out in the source), so the tracking state is carried
over unchanged. -/
def stepRun (w h : Nat) (s : SimState) : SimState :=
  SimState.mk
    (if s.curIsB1 then s.b1
      else genNext w h (currentBuf s) s.fadeBuf s.b1)
    (if s.curIsB1 then genNext w h (currentBuf s) s.fadeBuf s.b2
      else s.b2)
    (!s.curIsB1)
    (!s.shownIsG1)
    (genFade w h (currentBuf s) s.fadeBuf)
    s.track

/-- C4: every iteration of the running loop computes the next generation,
swaps the current/next buffer roles (`curIsB1` flips; no copy), and
presents the new current buffer (the presented group stays in sync with
the current role); but although `AUTO_RESET_ON_STABLE` is enabled, the
iteration leaves the tracking state (population history, `generation`,
`stable_count`) completely unchanged: the stability machinery is never
invoked from the loop. -/
theorem run_iteration_swaps_but_skips_stability (w h : Nat) (s : SimState)
    (hsync : s.shownIsG1 = s.curIsB1) :
    (stepRun w h s).curIsB1 = !s.curIsB1 ∧
    presentedBuf (stepRun w h s) = currentBuf (stepRun w h s) ∧
    currentBuf (stepRun w h s) =
      genNext w h (currentBuf s) s.fadeBuf (if s.curIsB1 then s.b2 else s.b1) ∧
    (AUTO_RESET_ON_STABLE = true ∧ (stepRun w h s).track = s.track) := by
  unfold stepRun presentedBuf currentBuf
  cases hc : s.curIsB1 <;> rw [hsync, hc] <;> simp [AUTO_RESET_ON_STABLE]

/-- C4 witness: the loop-iteration theorem applied to a concrete 1x1
simulator state with a populated tracking state. -/
theorem run_iteration_swaps_but_skips_stability_witness :
    (stepRun 1 1 (SimState.mk (fun _ => 7) (fun _ => 0) true true (fun _ => 7)
        (Track.mk [4, 5, 6] 2 9))).curIsB1 = !true ∧
    presentedBuf (stepRun 1 1 (SimState.mk (fun _ => 7) (fun _ => 0) true true
        (fun _ => 7) (Track.mk [4, 5, 6] 2 9))) =
      currentBuf (stepRun 1 1 (SimState.mk (fun _ => 7) (fun _ => 0) true true
        (fun _ => 7) (Track.mk [4, 5, 6] 2 9))) ∧
    currentBuf (stepRun 1 1 (SimState.mk (fun _ => 7) (fun _ => 0) true true
        (fun _ => 7) (Track.mk [4, 5, 6] 2 9))) =
      genNext 1 1 (currentBuf (SimState.mk (fun _ => 7) (fun _ => 0) true true
        (fun _ => 7) (Track.mk [4, 5, 6] 2 9))) (fun _ => 7)
        (if true then (fun _ : Nat => 0) else (fun _ : Nat => 7)) ∧
    (AUTO_RESET_ON_STABLE = true ∧
      (stepRun 1 1 (SimState.mk (fun _ => 7) (fun _ => 0) true true (fun _ => 7)
        (Track.mk [4, 5, 6] 2 9))).track = Track.mk [4, 5, 6] 2 9) :=
  run_iteration_swaps_but_skips_stability 1 1
    (SimState.mk (fun _ => 7) (fun _ => 0) true true (fun _ => 7)
      (Track.mk [4, 5, 6] 2 9)) rfl

/-! ### C8 -/

lemma xWrapM1_lt (w x : Nat) (hx : x < w) : xWrapM1 w x < w := by
  unfold xWrapM1; split <;> omega

lemma xWrapP1_lt (w x : Nat) (hx : x < w) : xWrapP1 w x < w := by
  unfold xWrapP1; split <;> omega

lemma yWrapM1_lt (h y : Nat) (hy : y < h) : yWrapM1 h y < h := by
  unfold yWrapM1; split <;> omega

lemma yWrapP1_lt (h y : Nat) (hy : y < h) : yWrapP1 h y < h := by
  unfold yWrapP1; split <;> omega

lemma cellIdx_lt (w h a b : Nat) (ha : a < w) (hb : b < h) :
    cellIdx w a b < w * h := by
  unfold cellIdx
  calc a + b * w < w + b * w := Nat.add_lt_add_right ha (b * w)
    _ = (b + 1) * w := by ring
    _ ≤ h * w := Nat.mul_le_mul_right w hb
    _ = w * h := Nat.mul_comm h w

lemma isMax_congr {cur cur2 : Nat → Nat} {i : Nat} (hci : cur i = cur2 i) :
    isMax cur i = isMax cur2 i := by
  unfold isMax; rw [hci]

lemma isStableChecked_isSome (a b : Nat) (rest : List Nat) :
    (isStableChecked (a :: b :: rest)).isSome = true := by
  cases rest with
  | nil =>
    unfold isStableChecked
    simp only [List.getElem?_cons_zero, List.getElem?_cons_succ]
    split <;> simp
  | cons c rest2 =>
    unfold isStableChecked
    simp only [List.getElem?_cons_zero, List.getElem?_cons_succ]
    split
    · simp
    · split
      · split
        · simp
        · split <;> simp
      · simp

/-- C8 counterexample: the spec admits `HISTORY_SIZE = 1`, but on a
one-entry window the static check's unconditional read of `history[1]` is
out of bounds (a Python `IndexError`, modelled as `none`). -/
theorem history_read_out_of_bounds :
    isStableChecked [5] = none ∧ 1 ≤ ([5] : List Nat).length := by
  exact ⟨rfl, by decide⟩

/-- C8 (amended): all grid neighbor reads of the rule engine are within
bounds for every cell of the grid — the neighbor count only depends on
buffer values at indices below `w * h`; and every history read of the
stability check is within bounds whenever `HISTORY_SIZE ≥ 2` (not `≥ 1` as
claimed: the static check reads `history[1]` unconditionally, so a
one-entry window faults; the guarded `history[2]` read needs no further
restriction). -/
theorem bounds_safety (hist : List Nat) (w h x y : Nat) (cur cur2 : Nat → Nat)
    (hlen : 2 ≤ hist.length) (hx : x < w) (hy : y < h)
    (hagree : ∀ i, i < w * h → cur i = cur2 i) :
    (isStableChecked hist).isSome = true ∧
    neighborCount w h cur x y = neighborCount w h cur2 x y := by
  constructor
  · match hist, hlen with
    | a :: b :: rest, _ => exact isStableChecked_isSome a b rest
  · have e1 := isMax_congr (hagree _
      (cellIdx_lt w h _ _ (xWrapM1_lt w x hx) (yWrapM1_lt h y hy)))
    have e2 := isMax_congr (hagree _
      (cellIdx_lt w h _ _ hx (yWrapM1_lt h y hy)))
    have e3 := isMax_congr (hagree _
      (cellIdx_lt w h _ _ (xWrapP1_lt w x hx) (yWrapM1_lt h y hy)))
    have e4 := isMax_congr (hagree _
      (cellIdx_lt w h _ _ (xWrapM1_lt w x hx) hy))
    have e5 := isMax_congr (hagree _
      (cellIdx_lt w h _ _ (xWrapP1_lt w x hx) hy))
    have e6 := isMax_congr (hagree _
      (cellIdx_lt w h _ _ (xWrapM1_lt w x hx) (yWrapP1_lt h y hy)))
    have e7 := isMax_congr (hagree _
      (cellIdx_lt w h _ _ hx (yWrapP1_lt h y hy)))
    have e8 := isMax_congr (hagree _
      (cellIdx_lt w h _ _ (xWrapP1_lt w x hx) (yWrapP1_lt h y hy)))
    unfold neighborCount
    simp only [e1, e2, e3, e4, e5, e6, e7, e8]

/-- C8 witness: bounds safety applied to a length-2 window and a 3x3 grid
whose buffers agree on all in-range indices but differ outside. -/
theorem bounds_safety_witness :
    (isStableChecked [4, 6]).isSome = true ∧
    neighborCount 3 3 (fun _ => 7) 0 0 =
      neighborCount 3 3 (fun i => if i < 9 then 7 else 0) 0 0 :=
  bounds_safety [4, 6] 3 3 0 0 (fun _ => 7)
    (fun i => if i < 9 then 7 else 0) (by decide) (by decide) (by decide)
    (fun i hi => by
      have h9 : i < 9 := hi
      show (7 : Nat) = if i < 9 then 7 else 0
      rw [if_pos h9])

end GameOfLife
